import Mathlib

/-!
# Verification of the easymesh batch exporter core

A shallow embedding, in Lean 4, of the export pipeline and freshness
indicator logic of the `easymesh_batch_exporter` Blender add-on
(`operators.py`, `export_indicators.py`, `properties.py`), together with
theorems settling the frozen specification claims C1 to C10.

Numeric code is modelled over `ℚ` (exact rational arithmetic standing in
for Python floats) and `ℕ`; Python `int(...)` truncation of non-negative
quantities is `Int.toNat ∘ Int.floor`.  Fallible Python code is modelled
with `Except`; a Python `try/except` that swallows every exception becomes
a total Lean function that pattern-matches on the `Except` result.
-/

namespace EasyMesh

/-- Error kinds raised by the pipeline.  `validationError`, `resourceError`,
`processingError` and `exportFormatError` are the add-on's own exception
classes (`operators.py` lines 44-61); `valueError`, `runtimeError` and
`attributeError` are Python builtins. -/
inductive ErrKind where
  | validationError
  | resourceError
  | processingError
  | exportFormatError
  | valueError
  | runtimeError
  | attributeError
  | referenceError
  deriving DecidableEq, Repr

/-! ## C1: progressive ratio (`calculate_progressive_ratio`, operators.py 2032-2045) -/

/-- Embedding of `calculate_progressive_ratio`:
`if previous_ratio <= 0: return target_ratio; return target_ratio / previous_ratio`. -/
def calculate_progressive_ratio (target_ratio previous_ratio : ℚ) : ℚ :=
  if previous_ratio ≤ 0 then target_ratio
  else target_ratio / previous_ratio

/-- C1: for every pair of ratios, the progressive-ratio computation returns
`target_ratio / previous_ratio` when `previous_ratio > 0`, and returns
`target_ratio` unchanged when `previous_ratio ≤ 0`. -/
theorem c1_progressive_ratio (target_ratio previous_ratio : ℚ) :
    (0 < previous_ratio →
      calculate_progressive_ratio target_ratio previous_ratio
        = target_ratio / previous_ratio) ∧
    (previous_ratio ≤ 0 →
      calculate_progressive_ratio target_ratio previous_ratio = target_ratio) := by
  constructor
  · intro h
    simp [calculate_progressive_ratio, not_le.mpr h]
  · intro h
    simp [calculate_progressive_ratio, h]

/-- Witness for C1 at the concrete ratios (1/2, 3/4) and (1/2, -1). -/
theorem c1_progressive_ratio_witness :
    calculate_progressive_ratio (1/2) (3/4) = (1/2) / (3/4) ∧
    calculate_progressive_ratio (1/2) (-1) = (1/2) := by
  refine ⟨(c1_progressive_ratio (1/2) (3/4)).1 (by norm_num), ?_⟩
  exact (c1_progressive_ratio (1/2) (-1)).2 (by norm_num)

/-! ## String helpers modelling Python string operations -/

/-- Whether the character list `a` starts with the pattern `b`. -/
def startsList : List Char → List Char → Bool
  | _, [] => true
  | [], _ :: _ => false
  | a :: as, b :: bs => a = b && startsList as bs

/-- Whether the pattern `pat` occurs as a contiguous sublist of `l`
(Python's `pat in l` on strings). -/
def hasSub : List Char → List Char → Bool
  | [], pat => startsList [] pat
  | c :: rest, pat => startsList (c :: rest) pat || hasSub rest pat

/-- Python's `pat in s` substring test. -/
def strContains (s pat : String) : Bool :=
  hasSub s.data pat.data

/-! ## C6: texture resize dimensions (`save_external_textures`, operators.py 1654-1684) -/

/-- Embedding of `needs_resize` from operators.py line 1655: resize only when a target is
set and some original dimension exceeds it. -/
def needs_resize (orig_width orig_height : ℕ)
    (adjusted_target_size : Option ℕ) : Bool :=
  match adjusted_target_size with
  | none => false
  | some t => decide (orig_width > t) || decide (orig_height > t)

/-- The real-valued (pre-`int()`) resized dimensions computed at operators.py
lines 1659-1667: aspect ratio `orig_width / orig_height`; the larger side is
set to the target and the other side scaled by the aspect ratio. -/
def resize_dims_q (orig_width orig_height t : ℕ) : ℚ × ℚ :=
  let aspect_ratio : ℚ := (orig_width : ℚ) / (orig_height : ℚ)
  if orig_width > orig_height then
    ((t : ℚ), (t : ℚ) / aspect_ratio)
  else
    ((t : ℚ) * aspect_ratio, (t : ℚ))

/-- Final integer dimensions: Python `int(...)` truncation (floor, the values
being non-negative) followed by `max(1, ...)` (operators.py 1664-1671). -/
def resize_dims (orig_width orig_height t : ℕ) : ℕ × ℕ :=
  let q := resize_dims_q orig_width orig_height t
  (max 1 q.1.floor.toNat, max 1 q.2.floor.toNat)

/-- Flooring a rational below `n` lands below `n`: `⌊q⌋.toNat < n` whenever `q < n`. -/
theorem floor_toNat_lt_of_lt {q : ℚ} {n : ℕ} (hn : 0 < n) (h : q < n) :
    q.floor.toNat < n := by
  have hfloor : q.floor < (n : ℤ) := by
    have := Int.floor_le q
    exact_mod_cast lt_of_le_of_lt this h
  rcases le_or_lt q.floor 0 with h0 | h0
  · calc q.floor.toNat ≤ 0 := by omega
    _ < n := hn
  · omega

/-- C6: with positive original dimensions and a positive target tier,
(a) a target at least both dimensions means no resize happens;
(b) when a resize happens, neither final dimension exceeds the original one;
(c) both final dimensions are at least 1; and
(d) the pre-quantisation dimensions preserve the aspect ratio exactly. -/
theorem c6_resize_bounds (w h t : ℕ) (hw : 0 < w) (hh : 0 < h) (ht : 0 < t) :
    (t ≥ w ∧ t ≥ h → needs_resize w h (some t) = false) ∧
    (needs_resize w h (some t) = true →
      (resize_dims w h t).1 ≤ w ∧ (resize_dims w h t).2 ≤ h ∧
      1 ≤ (resize_dims w h t).1 ∧ 1 ≤ (resize_dims w h t).2) ∧
    (resize_dims_q w h t).1 / (resize_dims_q w h t).2 = (w : ℚ) / (h : ℚ) := by
  have hwq : (0 : ℚ) < (w : ℚ) := by exact_mod_cast hw
  have hhq : (0 : ℚ) < (h : ℚ) := by exact_mod_cast hh
  have htq : (0 : ℚ) < (t : ℚ) := by exact_mod_cast ht
  refine ⟨?_, ?_, ?_⟩
  · rintro ⟨h1, h2⟩
    simp only [needs_resize, Bool.or_eq_false_iff, decide_eq_false_iff_not, not_lt]
    omega
  · intro hneed
    have hcase : w > t ∨ h > t := by
      simp only [needs_resize, Bool.or_eq_true, decide_eq_true_eq] at hneed
      exact hneed
    by_cases hwh : w > h
    · -- larger width: new width is t (< w), new height is t / (w/h) = t*h/w < h
      have hwt : t < w := by omega
      have hq : (t : ℚ) / ((w : ℚ) / (h : ℚ)) < (h : ℚ) := by
        rw [div_div_eq_mul_div, div_lt_iff hwq]
        have : (t : ℚ) < (w : ℚ) := by exact_mod_cast hwt
        calc (t : ℚ) * (h : ℚ) < (w : ℚ) * (h : ℚ) :=
              (mul_lt_mul_right hhq).mpr this
        _ = (h : ℚ) * (w : ℚ) := mul_comm _ _
      simp only [resize_dims, resize_dims_q, if_pos hwh]
      refine ⟨?_, ?_, le_max_left _ _, le_max_left _ _⟩
      · simp only [max_le_iff]
        have : (t : ℚ) < (w : ℚ) := by exact_mod_cast hwt
        exact ⟨hw, le_of_lt (floor_toNat_lt_of_lt hw this)⟩
      · simp only [max_le_iff]
        exact ⟨hh, le_of_lt (floor_toNat_lt_of_lt hh hq)⟩
    · -- width ≤ height: new height is t (< h), new width is t * (w/h) < w
      have hht : t < h := by omega
      have hq : (t : ℚ) * ((w : ℚ) / (h : ℚ)) < (w : ℚ) := by
        rw [mul_div_assoc', div_lt_iff hhq]
        have : (t : ℚ) < (h : ℚ) := by exact_mod_cast hht
        calc (t : ℚ) * (w : ℚ) ≤ (t : ℚ) * (w : ℚ) := le_refl _
        _ < (h : ℚ) * (w : ℚ) := (mul_lt_mul_right hwq).mpr this
        _ = (w : ℚ) * (h : ℚ) := mul_comm _ _
      simp only [resize_dims, resize_dims_q, if_neg hwh]
      refine ⟨?_, ?_, le_max_left _ _, le_max_left _ _⟩
      · simp only [max_le_iff]
        exact ⟨hw, le_of_lt (floor_toNat_lt_of_lt hw hq)⟩
      · simp only [max_le_iff]
        have : (t : ℚ) < (h : ℚ) := by exact_mod_cast hht
        exact ⟨hh, le_of_lt (floor_toNat_lt_of_lt hh this)⟩
  · by_cases hwh : w > h
    · simp only [resize_dims_q, if_pos hwh]
      field_simp
      ring
    · simp only [resize_dims_q, if_neg hwh]
      field_simp
      ring

/-- Witness for C6 at `w = 1024`, `h = 512`, `t = 256`. -/
theorem c6_resize_bounds_witness :
    (256 ≥ 1024 ∧ 256 ≥ 512 → needs_resize 1024 512 (some 256) = false) ∧
    (needs_resize 1024 512 (some 256) = true →
      (resize_dims 1024 512 256).1 ≤ 1024 ∧ (resize_dims 1024 512 256).2 ≤ 512 ∧
      1 ≤ (resize_dims 1024 512 256).1 ∧ 1 ≤ (resize_dims 1024 512 256).2) ∧
    (resize_dims_q 1024 512 256).1 / (resize_dims_q 1024 512 256).2
      = ((1024 : ℕ) : ℚ) / ((512 : ℕ) : ℚ) :=
  c6_resize_bounds 1024 512 256 (by norm_num) (by norm_num) (by norm_num)

/-! ## C7: normal-map target tier promotion (`save_external_textures`,
operators.py 1578-1652; `properties.py` 264-317) -/

/-- The texture-related scene properties of `MeshExporterSettings`
(properties.py).  The per-level texture sizes are enum values stored as
numeric strings and read with `int(...)` in operators.py; they are modelled
as naturals.  The enum choices are 8192/4096/2048/1024 for LOD1,
4096/2048/1024/512 for LOD2, 2048/1024/512/256 for LOD3 and
1024/512/256/128 for LOD4 (defaults 2048, 1024, 512, 256). -/
structure SceneProps where
  mesh_export_lod1_texture_size : ℕ
  mesh_export_lod2_texture_size : ℕ
  mesh_export_lod3_texture_size : ℕ
  mesh_export_lod4_texture_size : ℕ
  mesh_export_preserve_normal_maps : Bool
  deriving Repr, DecidableEq

/-- Python truthiness of `target_size : Option ℕ` (`None` and `0` are falsy). -/
def pyTruthyOptNat : Option ℕ → Bool
  | none => false
  | some n => decide (n ≠ 0)

/-- The `target_size` selection at operators.py lines 1578-1592: substring match
of the level name in `lod_suffix`, in order LOD00, LOD01, ..., LOD04.
The source guard `if resize_textures and scene_props:` is the
`resize_textures` test here (the scene properties are always supplied). -/
def nominal_target_size (resize_textures : Bool) (p : SceneProps)
    (lod_suffix : String) : Option ℕ :=
  if resize_textures then
    if strContains lod_suffix "LOD00" then none
    else if strContains lod_suffix "LOD01" then some p.mesh_export_lod1_texture_size
    else if strContains lod_suffix "LOD02" then some p.mesh_export_lod2_texture_size
    else if strContains lod_suffix "LOD03" then some p.mesh_export_lod3_texture_size
    else if strContains lod_suffix "LOD04" then some p.mesh_export_lod4_texture_size
    else none
  else none

/-- Normal-map adjustment at operators.py lines 1642-1652: when the texture
is a normal map, preservation is enabled and a (truthy) target size applies,
levels LOD02/LOD03/LOD04 take the texture size configured for the previous
LOD level; every other suffix keeps `target_size`. -/
def adjusted_target_size (is_normal : Bool) (p : SceneProps)
    (target_size : Option ℕ) (lod_suffix : String) : Option ℕ :=
  if is_normal && p.mesh_export_preserve_normal_maps && pyTruthyOptNat target_size then
    if strContains lod_suffix "LOD02" then some p.mesh_export_lod1_texture_size
    else if strContains lod_suffix "LOD03" then some p.mesh_export_lod2_texture_size
    else if strContains lod_suffix "LOD04" then some p.mesh_export_lod3_texture_size
    else target_size
  else target_size

/-- Counterexample to C7: with the (legal) configuration LOD1 size = 1024 and
LOD2 size = 2048, a normal map at LOD02 with preservation enabled gets
effective tier 1024, which is *smaller* than the nominal tier 2048 — not the
next higher (larger) defined tier, as the claim requires. -/
theorem c7_counterexample :
    nominal_target_size true ⟨1024, 2048, 512, 256, true⟩ "_LOD02" = some 2048 ∧
    adjusted_target_size true ⟨1024, 2048, 512, 256, true⟩ (some 2048) "_LOD02"
      = some 1024 ∧
    ¬ (1024 > 2048) := by
  refine ⟨by decide, by decide, by norm_num⟩

/-- C7 (amended): for a normal map with preservation enabled and a truthy
nominal target, the effective tier at LOD02/LOD03/LOD04 is the texture size
configured for the *previous* LOD level (the next-larger tier under the
default strictly descending configuration), while LOD01 keeps its nominal
tier unchanged. -/
theorem c7_normal_map_promotion (p : SceneProps)
    (hpres : p.mesh_export_preserve_normal_maps = true)
    (h1 : 0 < p.mesh_export_lod1_texture_size)
    (h2 : 0 < p.mesh_export_lod2_texture_size)
    (h3 : 0 < p.mesh_export_lod3_texture_size)
    (h4 : 0 < p.mesh_export_lod4_texture_size) :
    adjusted_target_size true p (some p.mesh_export_lod2_texture_size) "_LOD02"
      = some p.mesh_export_lod1_texture_size ∧
    adjusted_target_size true p (some p.mesh_export_lod3_texture_size) "_LOD03"
      = some p.mesh_export_lod2_texture_size ∧
    adjusted_target_size true p (some p.mesh_export_lod4_texture_size) "_LOD04"
      = some p.mesh_export_lod3_texture_size ∧
    adjusted_target_size true p (some p.mesh_export_lod1_texture_size) "_LOD01"
      = some p.mesh_export_lod1_texture_size := by
  have t2 : pyTruthyOptNat (some p.mesh_export_lod2_texture_size) = true := by
    simp [pyTruthyOptNat]; omega
  have t3 : pyTruthyOptNat (some p.mesh_export_lod3_texture_size) = true := by
    simp [pyTruthyOptNat]; omega
  have t4 : pyTruthyOptNat (some p.mesh_export_lod4_texture_size) = true := by
    simp [pyTruthyOptNat]; omega
  have t1 : pyTruthyOptNat (some p.mesh_export_lod1_texture_size) = true := by
    simp [pyTruthyOptNat]; omega
  refine ⟨?_, ?_, ?_, ?_⟩ <;>
    simp [adjusted_target_size, hpres, t1, t2, t3, t4, strContains, hasSub, startsList]

/-- Witness for C7 with the default texture-size configuration. -/
theorem c7_normal_map_promotion_witness :
    adjusted_target_size true ⟨2048, 1024, 512, 256, true⟩ (some 1024) "_LOD02"
      = some 2048 ∧
    adjusted_target_size true ⟨2048, 1024, 512, 256, true⟩ (some 512) "_LOD03"
      = some 1024 ∧
    adjusted_target_size true ⟨2048, 1024, 512, 256, true⟩ (some 256) "_LOD04"
      = some 512 ∧
    adjusted_target_size true ⟨2048, 1024, 512, 256, true⟩ (some 2048) "_LOD01"
      = some 2048 :=
  c7_normal_map_promotion ⟨2048, 1024, 512, 256, true⟩ rfl
    (by norm_num) (by norm_num) (by norm_num) (by norm_num)

/-! ## Python string primitives used by the naming code -/

/-- Whether `c` is an ASCII uppercase letter (regex `[A-Z]`). -/
def isUpperAZ (c : Char) : Bool := 'A' ≤ c && c ≤ 'Z'

/-- Whether `c` is an ASCII lowercase letter (regex `[a-z]`). -/
def isLowerAZ (c : Char) : Bool := 'a' ≤ c && c ≤ 'z'

/-- Whether `c` is an ASCII digit (regex `[0-9]`). -/
def isDigit09 (c : Char) : Bool := '0' ≤ c && c ≤ '9'

/-- Whether `c` is a regex word character `[A-Za-z0-9_]` (for `\b`). -/
def isWordChar (c : Char) : Bool :=
  isUpperAZ c || isLowerAZ c || isDigit09 c || c = '_'

/-- Python whitespace (`str.split()` / `str.strip()` with no argument). -/
def isPyWs (c : Char) : Bool :=
  c = ' ' || c = '\t' || c = '\n' || c = '\r' || c = '\x0b' || c = '\x0c'

/-- Python `s.split(sep, 1)`: the part before the first separator, and
`some` remainder after it (or `none` when the separator is absent). -/
def splitOnce (sep : Char) : List Char → List Char × Option (List Char)
  | [] => ([], none)
  | c :: rest =>
    if c = sep then ([], some rest)
    else
      let p := splitOnce sep rest
      (c :: p.1, p.2)

/-- Python `s.split(sep)` (keeps empty pieces, `"".split(sep) = [""]`). -/
def splitChar (sep : Char) (l : List Char) : List (List Char) :=
  l.foldr (fun c acc =>
    if c = sep then [] :: acc
    else match acc with
      | [] => [[c]]
      | g :: gs => (c :: g) :: gs) [[]]

/-- Python `s.split()` with no argument: split on whitespace runs,
dropping empty pieces. -/
def splitWs (l : List Char) : List (List Char) :=
  (l.foldr (fun c acc =>
    if isPyWs c then [] :: acc
    else match acc with
      | [] => [[c]]
      | g :: gs => (c :: g) :: gs) []).filter (fun g => g ≠ [])

/-- Strip characters satisfying `p` from both ends (Python `str.strip`). -/
def stripBoth (p : Char → Bool) (l : List Char) : List Char :=
  ((l.dropWhile p).reverse.dropWhile p).reverse

/-- Embedding of `re.sub` collapsing underscores (`'_+'` to `'_'`): collapse each run of underscores to one. -/
def collapseUnderscores : List Char → List Char
  | [] => []
  | [c] => [c]
  | c1 :: c2 :: rest =>
    if c1 = '_' && c2 = '_' then collapseUnderscores (c2 :: rest)
    else c1 :: collapseUnderscores (c2 :: rest)

/-- Python `str.capitalize`: first character uppercased, the rest lowercased. -/
def pyCapitalize : List Char → List Char
  | [] => []
  | c :: rest => c.toUpper :: rest.map Char.toLower

/-- Python `sep.join(groups)`. -/
def joinSep (sep : Char) : List (List Char) → List Char
  | [] => []
  | [g] => g
  | g :: gs => g ++ sep :: joinSep sep gs

/-! ## Naming (`sanitise_filename` / `apply_naming_convention`,
operators.py 741-849) -/

/-- The character class of `re.sub(r'[\\/:*?"<>|.]', '_', name)`. -/
def illegal_filename_chars : List Char :=
  ['\\', '/', ':', '*', '?', '"', '<', '>', '|', '.']

/-- One character of `sanitise_filename`. -/
def sanChar (c : Char) : Char :=
  if illegal_filename_chars.contains c then '_' else c

/-- Embedding of `sanitise_filename` (operators.py 741-753): replace each
problematic filename character with an underscore. -/
def sanitise_filename (name : String) : String :=
  ⟨name.data.map sanChar⟩

/-- The character class `[\\/:*?"<>|.\-]` used by the UNREAL and GODOT
conventions (illegal filename characters plus the hyphen). -/
def unreal_sep_chars : List Char :=
  ['\\', '/', ':', '*', '?', '"', '<', '>', '|', '.', '-']

/-- Known Unreal asset-name pieces checked at operators.py line 780. -/
def unreal_known_prefixes : List (List Char) :=
  ["SM".data, "SK".data, "BP".data, "M".data, "T".data, "MT".data,
   "MI".data, "A".data, "S".data, "E".data, "W".data, "P".data]

/-- The separator replacement and known-pieces handling of the UNREAL
branch (operators.py 776-786): returns the retained upper-cased leading
piece (with its underscore) and the remaining text to be PascalCased. -/
def unreal_pfx_temp (name : String) : List Char × List Char :=
  let temp0 := name.data.map (fun c => if unreal_sep_chars.contains c then ' ' else c)
  if temp0.contains '_' && decide (temp0.length > 4) then
    match splitOnce '_' temp0 with
    | (before, some after) =>
      if unreal_known_prefixes.contains (before.map Char.toUpper) then
        (before.map Char.toUpper ++ ['_'], after)
      else (([] : List Char), temp0)
    | (_, none) => (([] : List Char), temp0)
  else (([] : List Char), temp0)

/-- The words the UNREAL branch would PascalCase (operators.py 788-790). -/
def unreal_words (name : String) : List (List Char) :=
  splitWs ((unreal_pfx_temp name).2.map (fun c => if c = '_' then ' ' else c))

/-- The `try:` body of the UNREAL branch (operators.py 771-801).  The
source computes `''.join(word.capitalise() for word in words)`; Python's
`str` has no method named `capitalise` (the spelling is `capitalize`), so
evaluating the generator on a first word raises `AttributeError`, while an
empty generator joins to the empty string without touching the typo. -/
def unreal_try (name : String) : Except ErrKind (List Char) :=
  match unreal_words name with
  | [] =>
    let result := (unreal_pfx_temp name).1 ++ []
    .ok (if result = [] then "Unnamed".data else result)
  | _ :: _ => .error ErrKind.attributeError

/-- The UNREAL branch: the try body with its `except` falling back to
`sanitise_filename(name)` (operators.py 802-804). -/
def unreal_convention (name : String) : String :=
  match unreal_try name with
  | .ok s => ⟨s⟩
  | .error _ => sanitise_filename name

/-- The joined, capitalised pieces computed by the UNITY branch
(operators.py 808-819). -/
def unity_result (name : String) : List Char :=
  let temp0 := name.data.map sanChar
  let temp1 := temp0.map (fun c => if c = ' ' then '_' else c)
  let temp2 := collapseUnderscores temp1
  let temp3 := stripBoth (fun c => c = '_') temp2
  let parts := splitChar '_' temp3
  let parts2 := parts.map (fun p => if p = [] then [] else pyCapitalize p)
  joinSep '_' (parts2.filter (fun p => p ≠ []))

/-- The UNITY branch (operators.py 806-822): `return result if result else
sanitise_filename(name)`.  Every operation in the `try` body is total, so
the `except` fallback is unreachable and the body is embedded directly. -/
def unity_convention (name : String) : String :=
  if unity_result name = [] then sanitise_filename name else ⟨unity_result name⟩

/-- One scanning step of
`re.findall(r'[A-Z]*[a-z]+|[A-Z]+(?=[A-Z][a-z]|\b)|[A-Z]|[0-9]+', s)`,
with explicit fuel (each step consumes at least one character, so fuel
`l.length` suffices).  At each position the alternatives resolve to:
uppercase-run + lowercase-run when the run of capitals is followed by a
lowercase letter; the whole uppercase run when followed by end of string or
a non-word character (the `\b` lookahead); a single capital otherwise; a
digit run; or skip one character. -/
def godotScanF : ℕ → List Char → List (List Char)
  | 0, _ => []
  | _ + 1, [] => []
  | fuel + 1, c :: rest =>
    let l := c :: rest
    let u := l.takeWhile isUpperAZ
    let r := l.dropWhile isUpperAZ
    match r with
    | [] => u :: godotScanF fuel []
    | c' :: _ =>
      if isLowerAZ c' then
        (u ++ r.takeWhile isLowerAZ) :: godotScanF fuel (r.dropWhile isLowerAZ)
      else if u ≠ [] then
        if isWordChar c' then [c] :: godotScanF fuel rest
        else u :: godotScanF fuel r
      else if isDigit09 c then
        l.takeWhile isDigit09 :: godotScanF fuel (l.dropWhile isDigit09)
      else godotScanF fuel rest

/-- Embedding of `re.findall` of the GODOT word pattern over `l`. -/
def godotFindall (l : List Char) : List (List Char) :=
  godotScanF l.length l

/-- The cleaned snake_case result computed by the GODOT branch
(operators.py 827-840). -/
def godot_result (name : String) : List Char :=
  let t0 := name.data.map (fun c => if unreal_sep_chars.contains c then ' ' else c)
  let t1 := t0.map (fun c => if c = '_' then ' ' else c)
  let words := godotFindall t1
  let words2 := (words.filter
    (fun w => w ≠ [] && stripBoth isPyWs w ≠ [])).map (List.map Char.toLower)
  stripBoth (fun c => c = '_') (collapseUnderscores (joinSep '_' words2))

/-- The GODOT branch (operators.py 824-847): `return result if result else
sanitise_filename(name).lower().replace(' ', '_')`.  Every operation in the
`try` body is total, so the `except` fallback (a slightly different basic
snake_case conversion) is unreachable and the body is embedded directly. -/
def godot_convention (name : String) : String :=
  if godot_result name = [] then
    ⟨((sanitise_filename name).data.map Char.toLower).map
      (fun c => if c = ' ' then '_' else c)⟩
  else ⟨godot_result name⟩

/-- Embedding of `apply_naming_convention` (operators.py 756-849). -/
def apply_naming_convention (name convention : String) : String :=
  if convention = "DEFAULT" then sanitise_filename name
  else if convention = "UNREAL" then unreal_convention name
  else if convention = "UNITY" then unity_convention name
  else if convention = "GODOT" then godot_convention name
  else sanitise_filename name

/-- A string is nonempty iff its character list is. -/
theorem string_ne_empty_iff (s : String) : s ≠ "" ↔ s.data ≠ [] := by
  cases s with
  | mk l =>
    constructor
    · intro h hdata
      apply h
      have hl : l = [] := hdata
      rw [hl]
    · intro h heq
      apply h
      rw [heq]

/-- Sanitisation maps a nonempty name to a nonempty name (it
replaces characters one for one, never dropping any). -/
theorem sanitise_ne_empty {name : String} (h : name ≠ "") :
    sanitise_filename name ≠ "" := by
  rw [string_ne_empty_iff] at h ⊢
  simpa [sanitise_filename] using h

/-- When the UNREAL try body completes without raising, its value is
nonempty (it is either the retained leading piece or `"Unnamed"`). -/
theorem unreal_try_ok_ne_nil {name : String} {s : List Char}
    (h : unreal_try name = .ok s) : s ≠ [] := by
  unfold unreal_try at h
  cases hw : unreal_words name with
  | nil =>
    rw [hw] at h
    simp only [Except.ok.injEq] at h
    subst h
    split
    · decide
    · assumption
  | cons w ws =>
    rw [hw] at h
    exact absurd h (by simp)

/-- Counterexample to C9: under the `DEFAULT` convention the empty input
name yields the empty output name, so the naming convention does *not*
always produce a non-empty output. -/
theorem c9_counterexample :
    apply_naming_convention "" "DEFAULT" = "" := by
  rfl

/-- C9 (amended): `apply_naming_convention` is a total function (every
exception a convention body can raise — in particular the
`AttributeError` of the UNREAL branch — is caught and replaced by the
sanitized original name), and for every *nonempty* input name and every
convention the output is nonempty. -/
theorem c9_naming_nonempty (name convention : String) (h : name ≠ "") :
    apply_naming_convention name convention ≠ "" := by
  unfold apply_naming_convention
  split
  · exact sanitise_ne_empty h
  split
  · -- UNREAL: either the ok value (nonempty) or the sanitized fallback
    unfold unreal_convention
    cases hu : unreal_try name with
    | ok s =>
      have := unreal_try_ok_ne_nil hu
      rw [string_ne_empty_iff]
      simpa using this
    | error e => exact sanitise_ne_empty h
  split
  · -- UNITY: either the computed pieces or the sanitized fallback
    unfold unity_convention
    split
    · exact sanitise_ne_empty h
    · rw [string_ne_empty_iff]
      simpa using (by assumption : ¬ unity_result name = [])
  split
  · -- GODOT: either the computed snake_case or the lowered sanitized name
    unfold godot_convention
    split
    · rw [string_ne_empty_iff] at h ⊢
      simpa [sanitise_filename] using h
    · rw [string_ne_empty_iff]
      simpa using (by assumption : ¬ godot_result name = [])
  · exact sanitise_ne_empty h

/-- Witness for C9 at `name = "a"` under each branch of the convention
dispatch. -/
theorem c9_naming_nonempty_witness :
    apply_naming_convention "a" "DEFAULT" ≠ "" ∧
    apply_naming_convention "a" "UNREAL" ≠ "" ∧
    apply_naming_convention "a" "UNITY" ≠ "" ∧
    apply_naming_convention "a" "GODOT" ≠ "" ∧
    apply_naming_convention "a" "OTHER" ≠ "" :=
  ⟨c9_naming_nonempty "a" "DEFAULT" (by decide),
   c9_naming_nonempty "a" "UNREAL" (by decide),
   c9_naming_nonempty "a" "UNITY" (by decide),
   c9_naming_nonempty "a" "GODOT" (by decide),
   c9_naming_nonempty "a" "OTHER" (by decide)⟩

/-! ## C10: LOD suffix stripping and re-naming (`setup_export_object`,
operators.py 867-896) -/

/-- The part of the character list before the first occurrence of `pat`
(Python `s.split(pat)[0]`; the whole list when `pat` does not occur). -/
def takeBefore : List Char → List Char → List Char
  | [], _ => []
  | c :: rest, pat =>
    if startsList (c :: rest) pat then [] else c :: takeBefore rest pat

/-- Python `f"{n:02d}"` for a natural number. -/
def pad2 (n : ℕ) : String :=
  if n < 10 then "0" ++ toString n else toString n

/-- operators.py 868-870: `if "_LOD" in original_obj_name:
original_obj_name = original_obj_name.split("_LOD")[0]`. -/
def strip_lod_suffix (original_obj_name : String) : String :=
  if strContains original_obj_name "_LOD" then
    ⟨takeBefore original_obj_name.data "_LOD".data⟩
  else original_obj_name

/-- The truncation step of `setup_export_object` (operators.py 882-889):
names longer than 100 characters are cut to 97 and marked with `"..."`. -/
def truncate_base (base_name : String) : String :=
  if base_name.length > 100 then base_name.take 97 ++ "..." else base_name

/-- The base name computed by `setup_export_object` (operators.py 867-889):
strip a `_LOD` tail, apply the naming convention, re-apply the configured
name pieces around it, and truncate to 100 characters with a `"..."`
marker. -/
def setup_base_name (original_obj_name convention pfx sfx : String) : String :=
  truncate_base
    (pfx ++ apply_naming_convention (strip_lod_suffix original_obj_name) convention ++ sfx)

/-- The final export name (operators.py 891-895): the base name, plus a
zero-padded `_LOD<NN>` tail when an LOD level is given. -/
def setup_final_name (base_name : String) (lod_level : Option ℕ) : String :=
  match lod_level with
  | some n => base_name ++ "_LOD" ++ pad2 n
  | none => base_name

/-- The `_LOD` pattern as a character list. -/
def lodPat : List Char := ['_', 'L', 'O', 'D']

theorem lodPat_eq_data : "_LOD".data = lodPat := rfl

/-- Any list starts with itself (prepended to anything). -/
theorem startsList_append_self (p x : List Char) :
    startsList (p ++ x) p = true := by
  induction p with
  | nil => cases x <;> rfl
  | cons a p' ih => simp [startsList, ih]

/-- The pattern `"_LOD"` has no border: an occurrence of `"_LOD"` in `a ++ "_LOD" ++ r`
cannot start strictly inside a nonempty `a` that is `"_LOD"`-free, because
no proper suffix of such an `a` extends to `"_LOD"` across the boundary. -/
theorem lod_no_straddle (a r : List Char) (ha : a ≠ [])
    (hfree : hasSub a lodPat = false) :
    startsList (a ++ (lodPat ++ r)) lodPat = false := by
  rcases a with _ | ⟨c1, _ | ⟨c2, _ | ⟨c3, _ | ⟨c4, rest⟩⟩⟩⟩
  · exact absurd rfl ha
  · simp [lodPat, startsList]
  · simp [lodPat, startsList]
  · simp [lodPat, startsList]
  · simp only [hasSub, Bool.or_eq_false_iff] at hfree
    have hs := hfree.1
    simp only [lodPat, startsList, List.cons_append] at hs ⊢
    simpa using hs

/-- Splitting `a ++ "_LOD" ++ r` at the first `"_LOD"` recovers `a` when
`a` itself is `"_LOD"`-free. -/
theorem takeBefore_append_pat (a r : List Char)
    (hfree : hasSub a lodPat = false) :
    takeBefore (a ++ (lodPat ++ r)) lodPat = a := by
  induction a with
  | nil =>
    have h : startsList (lodPat ++ r) lodPat = true := startsList_append_self _ _
    simp only [List.nil_append]
    rw [show lodPat ++ r = '_' :: (['L', 'O', 'D'] ++ r) from rfl]
    rw [takeBefore]
    simp only [show ('_' :: (['L', 'O', 'D'] ++ r)) = lodPat ++ r from rfl, h]
    rfl
  | cons c a' ih =>
    simp only [hasSub, Bool.or_eq_false_iff] at hfree
    have hns : startsList ((c :: a') ++ (lodPat ++ r)) lodPat = false :=
      lod_no_straddle (c :: a') r (by simp) (by simp [hasSub, hfree.1, hfree.2])
    simp only [List.cons_append] at hns ⊢
    rw [takeBefore, if_neg (by simp [hns])]
    rw [ih hfree.2]

/-- The pattern `"_LOD"` occurs in `a ++ "_LOD" ++ r`. -/
theorem hasSub_append_pat (a r : List Char) :
    hasSub (a ++ (lodPat ++ r)) lodPat = true := by
  induction a with
  | nil =>
    simp only [List.nil_append]
    rw [show lodPat ++ r = '_' :: (['L', 'O', 'D'] ++ r) from rfl]
    rw [hasSub]
    simp only [Bool.or_eq_true]
    left
    exact startsList_append_self lodPat r
  | cons c a' ih =>
    simp only [List.cons_append]
    rw [hasSub]
    simp [ih]

/-- Taking the part before a pattern never lengthens a list. -/
theorem takeBefore_length_le (l pat : List Char) :
    (takeBefore l pat).length ≤ l.length := by
  induction l with
  | nil => simp [takeBefore]
  | cons c rest ih =>
    rw [takeBefore]
    split
    · simp
    · simpa using ih

theorem sanChar_underscore : sanChar '_' = '_' := by decide

/-- Sanitising a character is idempotent: the output characters are never illegal. -/
theorem sanChar_idem (c : Char) : sanChar (sanChar c) = sanChar c := by
  by_cases h : illegal_filename_chars.contains c = true
  · have h1 : sanChar c = '_' := by unfold sanChar; rw [if_pos h]
    rw [h1]
    exact sanChar_underscore
  · have h1 : sanChar c = c := by unfold sanChar; rw [if_neg h]
    rw [h1]
    exact h1

theorem map_sanChar_idem (l : List Char) :
    (l.map sanChar).map sanChar = l.map sanChar := by
  induction l with
  | nil => rfl
  | cons c rest ih => simp [sanChar_idem c, ih]

/-- Sanitising a filename is idempotent. -/
theorem sanitise_idem (name : String) :
    sanitise_filename (sanitise_filename name) = sanitise_filename name := by
  cases name with
  | mk l =>
    show String.mk ((l.map sanChar).map sanChar) = String.mk (l.map sanChar)
    rw [map_sanChar_idem]

theorem str_length_data (s : String) : s.length = s.data.length := rfl

theorem str_mk_data (s : String) : String.mk s.data = s := by
  cases s
  rfl

/-- Counterexample to C10: with the `DEFAULT` convention and the configured
name piece `"P_"` in front, the first application maps `"Cube"` to base name
`"P_Cube"`, but stripping the appended `_LOD00` tail and re-applying the
same naming inputs yields `"P_P_Cube"` — the leading piece is applied a
second time, so re-naming is not idempotent as claimed. -/
theorem c10_counterexample :
    setup_base_name "Cube" "DEFAULT" "P_" "" = "P_Cube" ∧
    setup_final_name (setup_base_name "Cube" "DEFAULT" "P_" "") (some 0)
      = "P_Cube_LOD00" ∧
    setup_base_name "P_Cube_LOD00" "DEFAULT" "P_" "" = "P_P_Cube" ∧
    ("P_P_Cube" : String) ≠ "P_Cube" := by
  refine ⟨by decide, by decide, by decide, by decide⟩

theorem sanitise_length (name : String) :
    (sanitise_filename name).length = name.length := by
  cases name with
  | mk l => simp [sanitise_filename, str_length_data]

theorem strip_lod_length_le (name : String) :
    (strip_lod_suffix name).length ≤ name.length := by
  unfold strip_lod_suffix
  split
  · exact takeBefore_length_le name.data ("_LOD".data)
  · exact le_refl _

theorem truncate_base_short {base_name : String} (h : base_name.length ≤ 100) :
    truncate_base base_name = base_name := by
  unfold truncate_base
  rw [if_neg (by omega)]

theorem empty_append_empty (x : String) : "" ++ x ++ "" = x := by
  apply String.ext
  simp [String.data_append]

/-- The first naming application with the `DEFAULT` convention, empty
configured name pieces and a short input reduces to sanitising the
stripped name. -/
theorem setup_base_default {name : String} (hlen : name.length ≤ 100) :
    setup_base_name name "DEFAULT" "" ""
      = sanitise_filename (strip_lod_suffix name) := by
  unfold setup_base_name
  have hconv : apply_naming_convention (strip_lod_suffix name) "DEFAULT"
      = sanitise_filename (strip_lod_suffix name) := by
    unfold apply_naming_convention
    rw [if_pos rfl]
  rw [hconv, empty_append_empty]
  exact truncate_base_short (by
    rw [sanitise_length]
    exact le_trans (strip_lod_length_le name) hlen)

/-- C10 (amended): re-applying the naming with the same convention after a
previous `_LOD<NN>` tail was appended yields the same base name *provided*
the configured leading and trailing name pieces are empty, the convention's
transform is idempotent (as `DEFAULT` sanitisation is), the first base name
contains no `_LOD` of its own and no truncation occurs.  (In general the
second application re-applies the configured pieces around the already
decorated name and strips at the *first* `_LOD` occurrence, so the base
name changes, as the counterexample shows.) -/
theorem c10_naming_idempotent (name : String) (k : ℕ)
    (hlen : name.length ≤ 100)
    (hfree : hasSub (setup_base_name name "DEFAULT" "" "").data lodPat = false) :
    setup_base_name
      (setup_final_name (setup_base_name name "DEFAULT" "" "") (some k))
      "DEFAULT" "" ""
      = setup_base_name name "DEFAULT" "" "" := by
  have hb : setup_base_name name "DEFAULT" "" ""
      = sanitise_filename (strip_lod_suffix name) := setup_base_default hlen
  set b := setup_base_name name "DEFAULT" "" "" with hbdef
  have hblen : b.length ≤ 100 := by
    rw [hb, sanitise_length]
    exact le_trans (strip_lod_length_le name) hlen
  -- the second input and its character list
  have hn2 : (setup_final_name b (some k)).data
      = b.data ++ (lodPat ++ (pad2 k).data) := by
    show (b ++ "_LOD" ++ pad2 k).data = b.data ++ (lodPat ++ (pad2 k).data)
    simp [String.data_append, lodPat_eq_data]
    rfl
  -- stripping recovers b
  have hstrip : strip_lod_suffix (setup_final_name b (some k)) = b := by
    unfold strip_lod_suffix
    rw [if_pos]
    · rw [lodPat_eq_data, hn2, takeBefore_append_pat _ _ hfree]
    · show strContains (setup_final_name b (some k)) "_LOD" = true
      unfold strContains
      rw [lodPat_eq_data, hn2]
      exact hasSub_append_pat _ _
  -- the second application sanitises b, which is already sanitised
  unfold setup_base_name
  rw [hstrip]
  have hconv : apply_naming_convention b "DEFAULT" = sanitise_filename b := by
    unfold apply_naming_convention
    rw [if_pos rfl]
  rw [hconv, empty_append_empty]
  have hsan : sanitise_filename b = b := by
    rw [hb]
    exact sanitise_idem (strip_lod_suffix name)
  rw [hsan]
  exact truncate_base_short hblen

/-- Witness for C10 at `name = "Cube"` with empty configured name pieces. -/
theorem c10_naming_idempotent_witness :
    setup_base_name
      (setup_final_name (setup_base_name "Cube" "DEFAULT" "" "") (some 1))
      "DEFAULT" "" ""
      = setup_base_name "Cube" "DEFAULT" "" "" :=
  c10_naming_idempotent "Cube" 1 (by decide) (by decide)

/-! ## C5: freshness indicators (`export_indicators.py`) -/

/-- Viewport RGBA colour.  Python floats are modelled as exact rationals;
both the live `obj.color` and the saved custom property hold the same
4-tuple representation, so the store/restore round trip of the source
(`[float(c) for c in obj.color]` and back) is the identity here, as it is
bit-for-bit on the float32 values in Blender. -/
abbrev Colour := ℚ × ℚ × ℚ × ℚ

/-- Embedding of `ExportStatus` (export_indicators.py 31-35). -/
inductive ExportStatus where
  | FRESH
  | STALE
  | NONE
  deriving DecidableEq, Repr

/-- The persisted integer value of each status. -/
def ExportStatus.val : ExportStatus → ℤ
  | .FRESH => 0
  | .STALE => 1
  | .NONE => 2

/-- Constant `FRESH_DURATION_SECONDS` (export_indicators.py 39). -/
def FRESH_DURATION_SECONDS : ℚ := 60

/-- Constant `STALE_DURATION_SECONDS` (export_indicators.py 40). -/
def STALE_DURATION_SECONDS : ℚ := 300

/-- Embedding of `STATUS_COLOURS` (export_indicators.py 51-54): green for FRESH, yellow
for STALE, no entry otherwise. -/
def STATUS_COLOURS (status : ℤ) : Option Colour :=
  if status = ExportStatus.FRESH.val then some (2/10, 8/10, 2/10, 1)
  else if status = ExportStatus.STALE.val then some (8/10, 8/10, 2/10, 1)
  else none

/-- A mesh object as the indicator code sees it: its viewport colour and
the three custom properties the add-on attaches
(`mesh_export_timestamp`, `mesh_export_status`,
`mesh_exporter_original_colour`). -/
structure FreshObj where
  color : Colour
  mesh_export_timestamp : Option ℚ
  mesh_export_status : Option ℤ
  mesh_exporter_original_colour : Option Colour
  deriving DecidableEq, Repr

/-- Embedding of `set_object_colour` (export_indicators.py 220-291): do
nothing without a status property or a status colour; otherwise store the
current colour as the original (only when none is stored yet) and apply the
status colour.  (The source skips the write when the colour already equals
the target and also sets `show_instancer_for_viewport`; both have no
observable effect in this model.) -/
def set_object_colour (obj : FreshObj) : FreshObj :=
  match obj.mesh_export_status with
  | none => obj
  | some status =>
    match STATUS_COLOURS status with
    | none => obj
    | some target_colour =>
      let obj1 :=
        match obj.mesh_exporter_original_colour with
        | none => { obj with mesh_exporter_original_colour := some obj.color }
        | some _ => obj
      { obj1 with color := target_colour }

/-- Embedding of `mark_object_as_exported` (export_indicators.py 63-95)
for a mesh object: set the timestamp to the current time, the status to
FRESH, and apply the indicator colour.  (The timer (re-)registration the
source performs first is external scheduling, outside this model.) -/
def mark_object_as_exported (now : ℚ) (obj : FreshObj) : FreshObj :=
  set_object_colour
    { obj with
        mesh_export_timestamp := some now
        mesh_export_status := some ExportStatus.FRESH.val }

/-- Embedding of `restore_object_colour` (export_indicators.py 128-217):
without a stored original colour do nothing; otherwise write the stored
colour back (the source skips the write when it already matches, with the
same result) and always delete the stored-colour property. -/
def restore_object_colour (obj : FreshObj) : FreshObj :=
  match obj.mesh_exporter_original_colour with
  | none => obj
  | some orig => { obj with color := orig, mesh_exporter_original_colour := none }

/-- Embedding of one object's update in `update_all_export_statuses`
(export_indicators.py 308-349): objects without a timestamp (or with the
falsy timestamp `0`) are skipped; otherwise the new status is FRESH below
the fresh window, STALE below the stale window and NONE beyond it; on a
transition to NONE the colour is restored and the tracking properties are
removed, on a transition to FRESH/STALE the status property and indicator
colour are set, and with no status change nothing happens. -/
def update_export_status (current_time : ℚ) (obj : FreshObj) : FreshObj :=
  match obj.mesh_export_timestamp with
  | none => obj
  | some export_time =>
    if export_time = 0 then obj
    else
      let elapsed_time := current_time - export_time
      let old_status_val := obj.mesh_export_status.getD ExportStatus.NONE.val
      let new_status_val : ℤ :=
        if elapsed_time < FRESH_DURATION_SECONDS then ExportStatus.FRESH.val
        else if elapsed_time < STALE_DURATION_SECONDS then ExportStatus.STALE.val
        else ExportStatus.NONE.val
      if new_status_val = old_status_val then obj
      else if new_status_val = ExportStatus.NONE.val then
        let obj1 := restore_object_colour obj
        { obj1 with mesh_export_timestamp := none, mesh_export_status := none }
      else
        set_object_colour { obj with mesh_export_status := some new_status_val }

/-- C5: marking an untracked mesh object at time `t` (with `t` nonzero, as
any real `time.time()` stamp is) and ticking at time `now` yields status
FRESH for `now - t < 60`, STALE for `60 ≤ now - t < 300`, and for
`now - t ≥ 300` expires the record: the timestamp and status properties
are removed and the colour is restored to the exact pre-mark colour. -/
theorem c5_freshness_transitions (obj : FreshObj) (t now : ℚ)
    (htime : obj.mesh_export_timestamp = none)
    (hstatus : obj.mesh_export_status = none)
    (horig : obj.mesh_exporter_original_colour = none)
    (ht : t ≠ 0) :
    (now - t < 60 →
      (update_export_status now (mark_object_as_exported t obj)).mesh_export_status
        = some ExportStatus.FRESH.val) ∧
    (60 ≤ now - t → now - t < 300 →
      (update_export_status now (mark_object_as_exported t obj)).mesh_export_status
        = some ExportStatus.STALE.val) ∧
    (300 ≤ now - t →
      (update_export_status now (mark_object_as_exported t obj)).mesh_export_timestamp
          = none ∧
      (update_export_status now (mark_object_as_exported t obj)).mesh_export_status
          = none ∧
      (update_export_status now (mark_object_as_exported t obj)).color
          = obj.color) := by
  have hmark : mark_object_as_exported t obj =
      { obj with
          mesh_export_timestamp := some t
          mesh_export_status := some ExportStatus.FRESH.val
          mesh_exporter_original_colour := some obj.color
          color := (2/10, 8/10, 2/10, 1) } := by
    unfold mark_object_as_exported set_object_colour
    simp [STATUS_COLOURS, ExportStatus.val, horig]
  refine ⟨?_, ?_, ?_⟩
  · intro h
    rw [hmark]
    unfold update_export_status
    simp [ht, FRESH_DURATION_SECONDS, h, ExportStatus.val]
  · intro h1 h2
    have hn1 : ¬ (now - t < FRESH_DURATION_SECONDS) := by
      rw [FRESH_DURATION_SECONDS]; exact not_lt.mpr h1
    have hp2 : now - t < STALE_DURATION_SECONDS := by
      rw [STALE_DURATION_SECONDS]; exact h2
    rw [hmark]
    unfold update_export_status
    simp [ht, hn1, hp2, ExportStatus.val, set_object_colour, STATUS_COLOURS]
  · intro h
    have hn1 : ¬ (now - t < FRESH_DURATION_SECONDS) := by
      rw [FRESH_DURATION_SECONDS]; push_neg; linarith
    have hn2 : ¬ (now - t < STALE_DURATION_SECONDS) := by
      rw [STALE_DURATION_SECONDS]; exact not_lt.mpr h
    rw [hmark]
    unfold update_export_status
    simp [ht, hn1, hn2, ExportStatus.val, restore_object_colour]

/-- Witness for C5: an untracked red object marked at `t = 1000` and
ticked at 1030, 1100 and 1400 seconds. -/
theorem c5_freshness_transitions_witness :
    ((update_export_status 1030
        (mark_object_as_exported 1000 ⟨(1, 0, 0, 1), none, none, none⟩)).mesh_export_status
      = some ExportStatus.FRESH.val) ∧
    ((update_export_status 1100
        (mark_object_as_exported 1000 ⟨(1, 0, 0, 1), none, none, none⟩)).mesh_export_status
      = some ExportStatus.STALE.val) ∧
    ((update_export_status 1400
        (mark_object_as_exported 1000 ⟨(1, 0, 0, 1), none, none, none⟩)).color
      = (1, 0, 0, 1)) := by
  have h30 := c5_freshness_transitions ⟨(1, 0, 0, 1), none, none, none⟩ 1000 1030
    rfl rfl rfl (by norm_num)
  have h100 := c5_freshness_transitions ⟨(1, 0, 0, 1), none, none, none⟩ 1000 1100
    rfl rfl rfl (by norm_num)
  have h400 := c5_freshness_transitions ⟨(1, 0, 0, 1), none, none, none⟩ 1000 1400
    rfl rfl rfl (by norm_num)
  exact ⟨h30.1 (by norm_num), h100.2.1 (by norm_num) (by norm_num),
    (h400.2.2 (by norm_num)).2.2⟩

/-! ## C4: texture externalization and restoration
(`save_external_textures` / `restore_material_references` / `export_object`,
operators.py 1553-2029) -/

/-- Python `s.endswith(pat)`. -/
def strEndsWith (s pat : String) : Bool :=
  startsList s.data.reverse pat.data.reverse

/-- An image datablock as the texture code sees it: its name and whether
`img.has_data` holds. -/
structure TexImage where
  img_name : String
  has_data : Bool
  deriving DecidableEq, Repr

/-- The object store the texture code operates on: the image reference of
every material texture node (by node id), the image datablocks (by image
id), and the next fresh datablock id `bpy.data.images.load` would assign.
Blender's rename-on-collision of datablock names is behaviour of the host
application, not of this code, and is not modelled. -/
structure TexState where
  node_image : ℕ → Option ℕ
  image_info : ℕ → Option TexImage
  next_id : ℕ

/-- One iteration of the node loop of `save_external_textures`
(operators.py 1600-1738) for the node `nid`: nodes without an image or
whose image has no data are skipped; otherwise the `try:` body — saving the
(possibly resized) copy to disk, loading it back as a new `*_external`
datablock, recording `original_references[node] = img` and rewiring
`node.image` — either completes (`saveOk nid`) or raises and is caught by
the per-texture `except`, changing nothing.  Returns the new state and the
recorded restoration entry, if any. -/
def save_texture_step (saveOk : ℕ → Bool) (nid : ℕ) (σ : TexState) :
    TexState × Option (ℕ × ℕ) :=
  match σ.node_image nid with
  | none => (σ, none)
  | some imgId =>
    match σ.image_info imgId with
    | none => (σ, none)
    | some img =>
      if ¬ img.has_data then (σ, none)
      else if saveOk nid then
        let extId := σ.next_id
        ({ node_image := fun n => if n = nid then some extId else σ.node_image n,
           image_info := fun i =>
             if i = extId then some ⟨img.img_name ++ "_external", true⟩
             else σ.image_info i,
           next_id := σ.next_id + 1 },
         some (nid, imgId))
      else (σ, none)

/-- The node loop of `save_external_textures`: process each texture node in
order, accumulating the `original_references` entries in insertion order. -/
def save_external_go (saveOk : ℕ → Bool) :
    List ℕ → TexState → TexState × List (ℕ × ℕ)
  | [], σ => (σ, [])
  | nid :: rest, σ =>
    match save_texture_step saveOk nid σ with
    | (σ1, none) => save_external_go saveOk rest σ1
    | (σ1, some r) =>
      let p := save_external_go saveOk rest σ1
      (p.1, r :: p.2)

/-- One entry of `restore_material_references` (operators.py 1750-1771):
restore `node.image` to the original image and remove the external
datablock if its name still ends in `"_external"`; a vanished node or
image is tolerated (the source catches `ReferenceError`/`AttributeError`). -/
def restore_reference_step (σ : TexState) (r : ℕ × ℕ) : TexState :=
  match σ.node_image r.1 with
  | none => σ
  | some extId =>
    let σ1 : TexState :=
      { σ with node_image := fun n => if n = r.1 then some r.2 else σ.node_image n }
    match σ1.image_info extId with
    | none => σ1
    | some ext =>
      if strEndsWith ext.img_name "_external" then
        { σ1 with image_info := fun i => if i = extId then none else σ1.image_info i }
      else σ1

/-- Embedding of `restore_material_references` (operators.py 1743-1771). -/
def restore_material_references (refs : List (ℕ × ℕ)) (σ : TexState) : TexState :=
  refs.foldl restore_reference_step σ

/-- The texture lifecycle of `export_object` (operators.py 1826-2029) over
the material nodes `nodeIds`: when textures are not embedded, save external
derivatives and rewire the nodes, attempt the artifact write (`exportOk`
says whether it succeeds or raises), and in the `finally:` block restore
the recorded references.  Returns the write outcome and the final state. -/
def export_object_textures (saveOk : ℕ → Bool) (exportOk : Bool)
    (embed_textures : Bool) (nodeIds : List ℕ) (σ : TexState) :
    Bool × TexState :=
  if embed_textures then (exportOk, σ)
  else
    let p := save_external_go saveOk nodeIds σ
    let σ2 := if p.2 ≠ [] then restore_material_references p.2 p.1 else p.1
    (exportOk, σ2)

/-- The bookkeeping relation between the pre-save state `σ` and the
post-save state `σ'` with recorded references `refs`:  ids only grow, the
nodes outside `refs` and the previously existing images are untouched,
every recorded node originally held its recorded image and now holds a
distinct fresh `*_external` datablock, and every datablock beyond the old
id horizon is one of those externals. -/
def SaveInv (σ σ' : TexState) (refs : List (ℕ × ℕ)) : Prop :=
  σ.next_id ≤ σ'.next_id ∧
  (∀ n, (∀ r ∈ refs, r.1 ≠ n) → σ'.node_image n = σ.node_image n) ∧
  (∀ i, i < σ.next_id → σ'.image_info i = σ.image_info i) ∧
  (∀ i, σ'.image_info i ≠ none → i < σ'.next_id) ∧
  (refs.map Prod.fst).Nodup ∧
  (∀ r ∈ refs, σ.node_image r.1 = some r.2 ∧
    ∃ e nm, σ'.node_image r.1 = some e ∧ σ.next_id ≤ e ∧
      σ'.image_info e = some ⟨nm ++ "_external", true⟩) ∧
  (∀ r ∈ refs, ∀ r' ∈ refs, r.1 ≠ r'.1 →
    σ'.node_image r.1 ≠ σ'.node_image r'.1) ∧
  (∀ i, σ.next_id ≤ i → σ'.image_info i ≠ none →
    ∃ r ∈ refs, σ'.node_image r.1 = some i)

/-- A name built by appending `"_external"` satisfies the restore-time
`endswith("_external")` test. -/
theorem strEndsWith_append_external (nm : String) :
    strEndsWith (nm ++ "_external") "_external" = true := by
  unfold strEndsWith
  rw [String.data_append, List.reverse_append]
  exact startsList_append_self _ _

/-- Case analysis of `save_texture_step`: either nothing happens and no
reference is recorded, or the node had an image with data, the save
succeeded, the node is rewired to the fresh external datablock and the
original reference is recorded. -/
theorem save_texture_step_cases (saveOk : ℕ → Bool) (nid : ℕ) (σ : TexState) :
    save_texture_step saveOk nid σ = (σ, none) ∨
    (∃ imgId img, σ.node_image nid = some imgId ∧
      σ.image_info imgId = some img ∧ img.has_data = true ∧ saveOk nid = true ∧
      save_texture_step saveOk nid σ =
        ({ node_image := fun n => if n = nid then some σ.next_id else σ.node_image n,
           image_info := fun i =>
             if i = σ.next_id then some ⟨img.img_name ++ "_external", true⟩
             else σ.image_info i,
           next_id := σ.next_id + 1 },
         some (nid, imgId))) := by
  cases h1 : σ.node_image nid with
  | none => exact Or.inl (by simp [save_texture_step, h1])
  | some imgId =>
    cases h2 : σ.image_info imgId with
    | none => exact Or.inl (by simp [save_texture_step, h1, h2])
    | some img =>
      cases h3 : img.has_data with
      | false => exact Or.inl (by simp [save_texture_step, h1, h2, h3])
      | true =>
        cases h4 : saveOk nid with
        | false => exact Or.inl (by simp [save_texture_step, h1, h2, h3, h4])
        | true =>
          exact Or.inr ⟨imgId, img, rfl, h2, h3, rfl, by
            simp [save_texture_step, h1, h2, h3, h4]⟩

/-- Processing a duplicate-free node list establishes the save invariant,
and every recorded reference belongs to one of the processed nodes. -/
theorem save_external_go_inv (saveOk : ℕ → Bool) (ns : List ℕ) (σ : TexState)
    (hnd : ns.Nodup)
    (hvalid : ∀ i, σ.image_info i ≠ none → i < σ.next_id) :
    SaveInv σ (save_external_go saveOk ns σ).1 (save_external_go saveOk ns σ).2 ∧
    ∀ r ∈ (save_external_go saveOk ns σ).2, r.1 ∈ ns := by
  induction ns generalizing σ with
  | nil =>
    refine ⟨⟨le_refl _, fun n _ => rfl, fun i _ => rfl, hvalid, by simp [save_external_go],
      by simp [save_external_go], by simp [save_external_go], ?_⟩,
      by simp [save_external_go]⟩
    intro i hi hne
    exact absurd (hvalid i hne) (by simp [save_external_go]; omega)
  | cons n rest ih =>
    have hnd' : rest.Nodup := (List.nodup_cons.mp hnd).2
    have hnotin : n ∉ rest := (List.nodup_cons.mp hnd).1
    rcases save_texture_step_cases saveOk n σ with hstep |
      ⟨imgId, img, hni, hii, hhd, hok, hstep⟩
    · -- the node was skipped: no state change, no recorded reference
      have hgo : save_external_go saveOk (n :: rest) σ = save_external_go saveOk rest σ := by
        simp only [save_external_go, hstep]
      rw [hgo]
      obtain ⟨hinv, hsub⟩ := ih σ hnd' hvalid
      exact ⟨hinv, fun r hr => List.mem_cons_of_mem n (hsub r hr)⟩
    · -- the node was rewired to a fresh external datablock
      set σ1 : TexState :=
        { node_image := fun m => if m = n then some σ.next_id else σ.node_image m,
          image_info := fun i =>
            if i = σ.next_id then some ⟨img.img_name ++ "_external", true⟩
            else σ.image_info i,
          next_id := σ.next_id + 1 } with hσ1
      have hgo1 : (save_external_go saveOk (n :: rest) σ).1
          = (save_external_go saveOk rest σ1).1 := by
        simp only [save_external_go, hstep]
      have hgo2 : (save_external_go saveOk (n :: rest) σ).2
          = (n, imgId) :: (save_external_go saveOk rest σ1).2 := by
        simp only [save_external_go, hstep]
      have hnext1 : σ1.next_id = σ.next_id + 1 := rfl
      have hn_node : ∀ m, σ1.node_image m
          = if m = n then some σ.next_id else σ.node_image m := fun m => rfl
      have hn_img : ∀ i, σ1.image_info i
          = if i = σ.next_id then some ⟨img.img_name ++ "_external", true⟩
            else σ.image_info i := fun i => rfl
      have hvalid1 : ∀ i, σ1.image_info i ≠ none → i < σ1.next_id := by
        intro i hne
        rw [hn_img i] at hne
        rw [hnext1]
        by_cases hi : i = σ.next_id
        · omega
        · rw [if_neg hi] at hne
          have := hvalid i hne
          omega
      obtain ⟨⟨g1, g2, g3, g4, g5, g6, g7, g8⟩, hsub⟩ := ih σ1 hnd' hvalid1
      have hkeys_ne_n : ∀ r ∈ (save_external_go saveOk rest σ1).2, r.1 ≠ n := by
        intro r hr heq
        exact hnotin (heq ▸ hsub r hr)
      have hnode_n : (save_external_go saveOk rest σ1).1.node_image n
          = some σ.next_id := by
        rw [g2 n hkeys_ne_n, hn_node n, if_pos rfl]
      have himg_e : (save_external_go saveOk rest σ1).1.image_info σ.next_id
          = some ⟨img.img_name ++ "_external", true⟩ := by
        rw [g3 σ.next_id (by omega), hn_img σ.next_id, if_pos rfl]
      rw [hgo1, hgo2]
      refine ⟨⟨by omega, ?_, ?_, g4, ?_, ?_, ?_, ?_⟩, ?_⟩
      · -- untouched nodes
        intro m hm
        have hmn : n ≠ m := hm (n, imgId) (by simp)
        have hm' : ∀ r ∈ (save_external_go saveOk rest σ1).2, r.1 ≠ m := by
          intro r hr
          exact hm r (by simp [hr])
        rw [g2 m hm', hn_node m, if_neg (fun h => hmn h.symm)]
      · -- previously existing images untouched
        intro i hi
        rw [g3 i (by omega), hn_img i, if_neg (by omega)]
      · -- recorded node keys are distinct
        simp only [List.map_cons, List.nodup_cons]
        refine ⟨?_, g5⟩
        intro hmem
        obtain ⟨r, hr, hrn⟩ := List.mem_map.mp hmem
        exact hkeys_ne_n r hr hrn
      · -- every recorded node held its recorded image and now holds a
        -- fresh external datablock
        intro r hr
        rcases List.mem_cons.mp hr with hr1 | hr2
        · rw [hr1]
          exact ⟨hni, σ.next_id, img.img_name, hnode_n, le_refl _, himg_e⟩
        · obtain ⟨hpre, e, nm, hnode, he, hext⟩ := g6 r hr2
          refine ⟨?_, e, nm, hnode, by omega, hext⟩
          rw [hn_node r.1, if_neg (hkeys_ne_n r hr2)] at hpre
          exact hpre
      · -- distinct nodes hold distinct externals
        intro r hr r' hr' hne
        rcases List.mem_cons.mp hr with hr1 | hr2 <;>
          rcases List.mem_cons.mp hr' with hr1' | hr2'
        · rw [hr1, hr1'] at hne
          exact absurd rfl hne
        · obtain ⟨-, e', nm', hnode', he', -⟩ := g6 r' hr2'
          rw [hr1]
          show (save_external_go saveOk rest σ1).1.node_image n
            ≠ (save_external_go saveOk rest σ1).1.node_image r'.1
          rw [hnode_n, hnode']
          intro hcontra
          have : σ.next_id = e' := Option.some.inj hcontra
          omega
        · obtain ⟨-, e, nm, hnode, he, -⟩ := g6 r hr2
          rw [hr1']
          show (save_external_go saveOk rest σ1).1.node_image r.1
            ≠ (save_external_go saveOk rest σ1).1.node_image n
          rw [hnode_n, hnode]
          intro hcontra
          have : e = σ.next_id := Option.some.inj hcontra
          omega
        · exact g7 r hr2 r' hr2' hne
      · -- every image beyond the old horizon is a recorded external
        intro i hi hne
        by_cases hge : σ1.next_id ≤ i
        · obtain ⟨r, hr, hnode⟩ := g8 i hge hne
          exact ⟨r, by simp [hr], hnode⟩
        · have hieq : i = σ.next_id := by omega
          rw [hieq]
          exact ⟨(n, imgId), by simp, hnode_n⟩
      · -- every recorded node is one of the processed nodes
        intro r hr
        rcases List.mem_cons.mp hr with hr1 | hr2
        · rw [hr1]; simp
        · exact List.mem_cons_of_mem n (hsub r hr2)

/-- Restoring the recorded references undoes the save completely: the node
wiring and the image datablocks return to exactly the pre-save state. -/
theorem restore_undo (refs : List (ℕ × ℕ)) (σ σ' : TexState)
    (hvalid : ∀ i, σ.image_info i ≠ none → i < σ.next_id)
    (hinv : SaveInv σ σ' refs) :
    (restore_material_references refs σ').node_image = σ.node_image ∧
    (restore_material_references refs σ').image_info = σ.image_info := by
  induction refs generalizing σ' with
  | nil =>
    obtain ⟨h1, h2, h3, h4, h5, h6, h7, h8⟩ := hinv
    constructor
    · funext m
      exact h2 m (by simp)
    · funext i
      by_cases hi : i < σ.next_id
      · exact h3 i hi
      · have hσ : σ.image_info i = none := by
          by_contra hc
          exact hi (hvalid i hc)
        have hσ' : σ'.image_info i = none := by
          by_contra hc
          obtain ⟨r, hr, -⟩ := h8 i (by omega) hc
          simp at hr
        show σ'.image_info i = σ.image_info i
        rw [hσ, hσ']
  | cons r refs' ih =>
    obtain ⟨h1, h2, h3, h4, h5, h6, h7, h8⟩ := hinv
    obtain ⟨horig, e, nm, hnode, he, hext⟩ := h6 r (by simp)
    have hkeytail : r.1 ∉ refs'.map Prod.fst := by
      have := h5
      simp only [List.map_cons, List.nodup_cons] at this
      exact this.1
    have hstep : restore_reference_step σ' r
        = { node_image := fun m => if m = r.1 then some r.2 else σ'.node_image m,
            image_info := fun i => if i = e then none else σ'.image_info i,
            next_id := σ'.next_id } := by
      simp only [restore_reference_step, hnode, hext, strEndsWith_append_external,
        if_true]
    set σ2 : TexState :=
      { node_image := fun m => if m = r.1 then some r.2 else σ'.node_image m,
        image_info := fun i => if i = e then none else σ'.image_info i,
        next_id := σ'.next_id } with hσ2
    have hfold : restore_material_references (r :: refs') σ'
        = restore_material_references refs' σ2 := by
      unfold restore_material_references
      rw [List.foldl_cons, hstep]
    have hinv2 : SaveInv σ σ2 refs' := by
      refine ⟨h1, ?_, ?_, ?_, ?_, ?_, ?_, ?_⟩
      · -- nodes outside the remaining references
        intro m hm
        show (if m = r.1 then some r.2 else σ'.node_image m) = σ.node_image m
        by_cases hmr : m = r.1
        · rw [if_pos hmr, hmr, horig]
        · rw [if_neg hmr]
          refine h2 m ?_
          intro r' hr'
          rcases List.mem_cons.mp hr' with h | h
          · rw [h]; exact fun hc => hmr hc.symm
          · exact hm r' h
      · -- old images untouched
        intro i hi
        show (if i = e then none else σ'.image_info i) = σ.image_info i
        rw [if_neg (by omega), h3 i hi]
      · -- image validity
        intro i hne
        show i < σ'.next_id
        by_cases hie : i = e
        · rw [hσ2] at hne
          simp [hie] at hne
        · apply h4
          simpa [hσ2, hie] using hne
      · exact (List.nodup_cons.mp (by simpa using h5)).2
      · -- remaining pending references
        intro r' hr'
        obtain ⟨horig', e', nm', hnode', he', hext'⟩ := h6 r' (by simp [hr'])
        have hkey : r'.1 ≠ r.1 := by
          intro hc
          exact hkeytail (hc ▸ List.mem_map_of_mem Prod.fst hr')
        have hee : e ≠ e' := by
          intro hc
          have := h7 r (by simp) r' (by simp [hr']) (fun h => hkey h.symm)
          rw [hnode, hnode', hc] at this
          exact this rfl
        refine ⟨horig', e', nm', ?_, he', ?_⟩
        · show (if r'.1 = r.1 then some r.2 else σ'.node_image r'.1) = some e'
          rw [if_neg hkey, hnode']
        · show (if e' = e then none else σ'.image_info e') = some ⟨nm' ++ "_external", true⟩
          rw [if_neg (fun h => hee h.symm), hext']
      · -- distinctness of remaining externals
        intro r' hr' r'' hr'' hne
        have hk' : r'.1 ≠ r.1 := by
          intro hc
          exact hkeytail (hc ▸ List.mem_map_of_mem Prod.fst hr')
        have hk'' : r''.1 ≠ r.1 := by
          intro hc
          exact hkeytail (hc ▸ List.mem_map_of_mem Prod.fst hr'')
        show (if r'.1 = r.1 then some r.2 else σ'.node_image r'.1)
          ≠ (if r''.1 = r.1 then some r.2 else σ'.node_image r''.1)
        rw [if_neg hk', if_neg hk'']
        exact h7 r' (by simp [hr']) r'' (by simp [hr'']) hne
      · -- every surviving new image is a remaining external
        intro i hi hne
        have hie : i ≠ e := by
          intro hc
          rw [hσ2] at hne
          simp [hc] at hne
        have hne' : σ'.image_info i ≠ none := by
          simpa [hσ2, hie] using hne
        obtain ⟨r', hr', hnode'⟩ := h8 i hi hne'
        rcases List.mem_cons.mp hr' with h | h
        · rw [h] at hnode'
          rw [hnode] at hnode'
          exact absurd (Option.some.inj hnode') (by omega)
        · have hk' : r'.1 ≠ r.1 := by
            intro hc
            exact hkeytail (hc ▸ List.mem_map_of_mem Prod.fst h)
          refine ⟨r', h, ?_⟩
          show (if r'.1 = r.1 then some r.2 else σ'.node_image r'.1) = some i
          rw [if_neg hk', hnode']
    rw [hfold]
    exact ih σ2 hinv2

/-- C4: for every export with externalized textures (`embed_textures`
false), whatever the outcome `exportOk` of the artifact write, after
`export_object` completes the object store is back to its pre-export
state: every node rewired to a derivative again references its original
image (bit-identically — the same image id), every datablock beyond the
pre-export id horizon (i.e. every derivative) has been released, and the
node wiring and image table as a whole equal the pre-export ones. -/
theorem c4_texture_restore (saveOk : ℕ → Bool) (exportOk : Bool)
    (nodeIds : List ℕ) (σ : TexState)
    (hnd : nodeIds.Nodup)
    (hvalid : ∀ i, σ.image_info i ≠ none → i < σ.next_id) :
    (export_object_textures saveOk exportOk false nodeIds σ).2.node_image
        = σ.node_image ∧
    (export_object_textures saveOk exportOk false nodeIds σ).2.image_info
        = σ.image_info ∧
    (∀ r ∈ (save_external_go saveOk nodeIds σ).2,
      (export_object_textures saveOk exportOk false nodeIds σ).2.node_image r.1
        = some r.2) ∧
    (∀ i, σ.next_id ≤ i →
      (export_object_textures saveOk exportOk false nodeIds σ).2.image_info i
        = none) := by
  obtain ⟨hinv, -⟩ := save_external_go_inv saveOk nodeIds σ hnd hvalid
  have hres := restore_undo (save_external_go saveOk nodeIds σ).2 σ
    (save_external_go saveOk nodeIds σ).1 hvalid hinv
  have hE : (export_object_textures saveOk exportOk false nodeIds σ).2
      = restore_material_references (save_external_go saveOk nodeIds σ).2
          (save_external_go saveOk nodeIds σ).1 := by
    unfold export_object_textures
    by_cases h : (save_external_go saveOk nodeIds σ).2 = []
    · simp [h, restore_material_references]
    · simp [h]
  rw [hE]
  refine ⟨hres.1, hres.2, ?_, ?_⟩
  · intro r hr
    rw [hres.1]
    exact (hinv.2.2.2.2.2.1 r hr).1
  · intro i hi
    rw [hres.2]
    by_contra hc
    have := hvalid i hc
    omega

/-- Witness for C4: one node (id 0) wired to one image (id 10) with data,
the save succeeding and the artifact write failing. -/
theorem c4_texture_restore_witness :
    (export_object_textures (fun _ => true) false false [0]
        ⟨fun n => if n = 0 then some 10 else none,
         fun i => if i = 10 then some ⟨"tex", true⟩ else none, 11⟩).2.node_image
      = (fun n => if n = 0 then some 10 else none) ∧
    (export_object_textures (fun _ => true) false false [0]
        ⟨fun n => if n = 0 then some 10 else none,
         fun i => if i = 10 then some ⟨"tex", true⟩ else none, 11⟩).2.image_info
      = (fun i => if i = 10 then some ⟨"tex", true⟩ else none) := by
  have h := c4_texture_restore (fun _ => true) false [0]
    ⟨fun n => if n = 0 then some 10 else none,
     fun i => if i = 10 then some ⟨"tex", true⟩ else none, 11⟩
    (by simp)
    (by
      intro i hne
      by_cases hi : i = 10
      · subst hi
        show (10 : ℕ) < 11
        norm_num
      · simp [hi] at hne)
  exact ⟨h.1, h.2.1⟩

/-! ## C2, C3, C8: the LOD chain, its cleanup and the batch driver
(`cleanup_object` / `MESH_OT_batch_export`, operators.py 2048-2580) -/

/-- A scene object: its id and the mesh datablock it references. -/
structure BObj where
  obj_id : ℕ
  mesh_id : ℕ
  deriving DecidableEq, Repr

/-- The scene data the chain code manipulates: the objects, the mesh
datablocks, and the next fresh id a duplication would use. -/
structure BData where
  objects : List BObj
  meshes : List ℕ
  next_id : ℕ
  deriving DecidableEq, Repr

/-- Embedding of `cleanup_object` (operators.py 2048-2095): a `None`
argument returns immediately; a reference to an already-removed object
raises `ReferenceError` at the first dereference, which the enclosing
`except` swallows (no-op); otherwise the object is removed and, when it was
its mesh datablock's only user, the mesh is removed too.  Every exception
is caught, so the embedding is a total function. -/
def cleanup_object (σ : BData) (obj : Option ℕ) : BData :=
  match obj with
  | none => σ
  | some oid =>
    match σ.objects.find? (fun o => o.obj_id = oid) with
    | none => σ
    | some o =>
      let num_users := (σ.objects.filter (fun o' => o'.mesh_id = o.mesh_id)).length
      let σ1 : BData :=
        { σ with objects := σ.objects.filter (fun o' => o'.obj_id ≠ oid) }
      if num_users = 1 then
        { σ1 with meshes := σ1.meshes.filter (fun m => m ≠ o.mesh_id) }
      else σ1

/-- Disposal is idempotent: after the first call the object is gone, and
the second call's dereference hits the caught `ReferenceError` path. -/
theorem cleanup_object_idem (σ : BData) (oid : ℕ) :
    cleanup_object (cleanup_object σ (some oid)) (some oid)
      = cleanup_object σ (some oid) := by
  cases hfind : σ.objects.find? (fun o => o.obj_id = oid) with
  | none =>
    have h1 : cleanup_object σ (some oid) = σ := by
      simp only [cleanup_object, hfind]
    rw [h1, h1]
  | some o =>
    have hgone : ∀ (l : List BObj),
        (l.filter (fun o' => o'.obj_id ≠ oid)).find? (fun o' => o'.obj_id = oid)
          = none := by
      intro l
      rw [List.find?_eq_none]
      intro x hx
      have := List.of_mem_filter hx
      simpa using this
    have hout : (cleanup_object σ (some oid)).objects
        = σ.objects.filter (fun o' => o'.obj_id ≠ oid) := by
      simp only [cleanup_object, hfind]
      split <;> rfl
    set τ := cleanup_object σ (some oid) with hτ
    have hobj : τ.objects.find? (fun o' => o'.obj_id = oid) = none := by
      rw [hout]
      exact hgone _
    simp only [cleanup_object, hobj]

/-- The injected outcome of each externally-effectful step of one LOD
level: duplication (`create_export_copy`, level 0 only), naming/transform
setup (`setup_export_object`), the geometry processing step
(`apply_mesh_modifiers` at level 0, `apply_decimate_modifier` at deeper
levels) and the artifact write (`export_object`). -/
structure LevelOps where
  create_ok : Bool
  setup_ok : Bool
  process_ok : Bool
  export_ok : Bool
  deriving DecidableEq, Repr

/-- The per-level failure entry appended to `failed_exports`
(operators.py 2384): `f"{original_obj.name} (LOD{lod_level:02d})"`. -/
def failed_entry (name : String) (lvl : ℕ) : String :=
  name ++ " (LOD" ++ pad2 lvl ++ ")"

/-- The outcome of the level loop of `_process_lod_export`. -/
structure LoopOut where
  successful_exports : ℕ
  failed_exports : List String
  built_levels : List ℕ
  base_lod_obj : Option ℕ
  bdata : BData
  deriving DecidableEq, Repr

/-- The `for lod_level, target_ratio in enumerate(ratios)` loop of
`_process_lod_export` (operators.py 2316-2386).  Level 0 duplicates the
source (`create_export_copy` cleans up after itself when it fails), then
runs setup and modifiers — only after those succeed is the copy retained in
`base_lod_obj` — and exports.  Deeper levels re-use the retained copy:
progressive ratio, rename, decimate, export.  Any step's failure is caught
by the per-level `except`, which records `failed_entry` and breaks the
loop; `built_levels` records the levels whose construction was started. -/
def lod_loop (ops : ℕ → LevelOps) (name : String) :
    List ℚ → ℕ → ℚ → Option ℕ → BData → LoopOut
  | [], _, _, base, σ => ⟨0, [], [], base, σ⟩
  | target_ratio :: rest, lvl, prev, base, σ =>
    if lvl = 0 then
      if ¬ (ops 0).create_ok then
        ⟨0, [failed_entry name 0], [0], base, σ⟩
      else
        let oid := σ.next_id
        let σ1 : BData :=
          ⟨σ.objects ++ [⟨oid, oid⟩], σ.meshes ++ [oid], σ.next_id + 1⟩
        if ¬ (ops 0).setup_ok then
          ⟨0, [failed_entry name 0], [0], base, σ1⟩
        else if ¬ (ops 0).process_ok then
          ⟨0, [failed_entry name 0], [0], base, σ1⟩
        else if (ops 0).export_ok then
          let r := lod_loop ops name rest 1 target_ratio (some oid) σ1
          ⟨r.successful_exports + 1, r.failed_exports, 0 :: r.built_levels,
            r.base_lod_obj, r.bdata⟩
        else ⟨0, [failed_entry name 0], [0], some oid, σ1⟩
    else
      match base with
      | none => ⟨0, [failed_entry name lvl], [lvl], none, σ⟩
      | some b =>
        let _progressive_ratio := calculate_progressive_ratio target_ratio prev
        if ¬ (ops lvl).setup_ok then
          ⟨0, [failed_entry name lvl], [lvl], some b, σ⟩
        else if ¬ (ops lvl).process_ok then
          ⟨0, [failed_entry name lvl], [lvl], some b, σ⟩
        else if (ops lvl).export_ok then
          let r := lod_loop ops name rest (lvl + 1) target_ratio (some b) σ
          ⟨r.successful_exports + 1, r.failed_exports, lvl :: r.built_levels,
            r.base_lod_obj, r.bdata⟩
        else ⟨0, [failed_entry name lvl], [lvl], some b, σ⟩

/-- The outcome of `_process_lod_export` for one object. -/
structure LodResult where
  successful_exports : ℕ
  failed_exports : List String
  built_levels : List ℕ
  bdata : BData
  deriving DecidableEq, Repr

/-- Embedding of `_process_lod_export` (operators.py 2289-2401): prepend
the fixed full-detail ratio to the configured LOD ratios, run the level
loop, and in the `finally:` block dispose the retained working copy
(`cleanup_object(base_lod_obj, ...)`).  Metaball temporaries are not
modelled (the processed objects are meshes). -/
def process_lod_export (ops : ℕ → LevelOps) (name : String)
    (lod_ratios : List ℚ) (σ : BData) : LodResult :=
  let ratios := [(1 : ℚ)] ++ lod_ratios
  let r := lod_loop ops name ratios 0 1 none σ
  ⟨r.successful_exports, r.failed_exports, r.built_levels,
    cleanup_object r.bdata r.base_lod_obj⟩

/-- Embedding of the per-object loop of `MESH_OT_batch_export.execute`
(operators.py 2511-2551): each selected object is processed in turn,
success counts accumulate, failure entries are appended, and — since every
per-object exception is caught by the loop's `except` arms — processing
always continues with the next object. -/
def execute_batch (ops : String → ℕ → LevelOps) (names : List String)
    (lod_ratios : List ℚ) (σ : BData) : ℕ × List String × BData :=
  names.foldl
    (fun acc nm =>
      let res := process_lod_export (ops nm) nm lod_ratios acc.2.2
      (acc.1 + res.successful_exports, acc.2.1 ++ res.failed_exports, res.bdata))
    (0, [], σ)

/-- Whether every externally-effectful step of level `lvl` succeeds. -/
def level_ok (ops : ℕ → LevelOps) (lvl : ℕ) : Bool :=
  if lvl = 0 then
    (ops 0).create_ok && (ops 0).setup_ok && (ops 0).process_ok && (ops 0).export_ok
  else
    (ops lvl).setup_ok && (ops lvl).process_ok && (ops lvl).export_ok

/-- C2 (code evaluated at the failing input): when the level-0 setup step
fails *after* the duplicate has been created — `setup_export_object` wraps
any failure in a `RuntimeError` (operators.py 934-937) — the copy has not
yet been assigned to `base_lod_obj`, so the `finally:` cleanup of
`_process_lod_export` (operators.py 2388-2393) disposes nothing: the
working copy (object id 0 with its mesh) survives the chain.  The failure
itself is recorded, but the disposal-on-every-exit-path guarantee of the
claim is violated on this path. -/
theorem c2_working_copy_leak :
    (process_lod_export (fun _ => ⟨true, false, true, true⟩) "Cube" [1/2]
        ⟨[], [], 0⟩).failed_exports = ["Cube (LOD00)"] ∧
    (process_lod_export (fun _ => ⟨true, false, true, true⟩) "Cube" [1/2]
        ⟨[], [], 0⟩).bdata.objects = [⟨0, 0⟩] ∧
    (process_lod_export (fun _ => ⟨true, false, true, true⟩) "Cube" [1/2]
        ⟨[], [], 0⟩).bdata.meshes = [0] := by
  refine ⟨rfl, rfl, rfl⟩

/-- The successful level body recurses on the remaining levels with the
working copy retained. -/
theorem lod_loop_cons_ok (ops : ℕ → LevelOps) (name : String) (ratio : ℚ)
    (rest : List ℚ) (lvl : ℕ) (prev : ℚ) (base : Option ℕ) (σ : BData)
    (hbase : lvl = 0 ∨ base ≠ none) (hok : level_ok ops lvl = true) :
    ∃ b σ1, lod_loop ops name (ratio :: rest) lvl prev base σ =
      ⟨(lod_loop ops name rest (lvl + 1) ratio (some b) σ1).successful_exports + 1,
       (lod_loop ops name rest (lvl + 1) ratio (some b) σ1).failed_exports,
       lvl :: (lod_loop ops name rest (lvl + 1) ratio (some b) σ1).built_levels,
       (lod_loop ops name rest (lvl + 1) ratio (some b) σ1).base_lod_obj,
       (lod_loop ops name rest (lvl + 1) ratio (some b) σ1).bdata⟩ := by
  by_cases h0 : lvl = 0
  · subst h0
    simp only [level_ok, if_true, Bool.and_eq_true] at hok
    obtain ⟨⟨⟨h1, h2⟩, h3⟩, h4⟩ := hok
    refine ⟨σ.next_id,
      ⟨σ.objects ++ [⟨σ.next_id, σ.next_id⟩], σ.meshes ++ [σ.next_id],
        σ.next_id + 1⟩, ?_⟩
    simp [lod_loop, h1, h2, h3, h4]
  · rcases hbase with h | h
    · exact absurd h h0
    · obtain ⟨b, hb⟩ := Option.ne_none_iff_exists'.mp h
      simp only [level_ok, if_neg h0, Bool.and_eq_true] at hok
      obtain ⟨⟨h2, h3⟩, h4⟩ := hok
      refine ⟨b, σ, ?_⟩
      simp [lod_loop, h0, hb, h2, h3, h4]

/-- The failing level body records the per-level failure and breaks. -/
theorem lod_loop_cons_fail (ops : ℕ → LevelOps) (name : String) (ratio : ℚ)
    (rest : List ℚ) (lvl : ℕ) (prev : ℚ) (base : Option ℕ) (σ : BData)
    (hok : level_ok ops lvl = false) :
    (lod_loop ops name (ratio :: rest) lvl prev base σ).failed_exports
        = [failed_entry name lvl] ∧
    (lod_loop ops name (ratio :: rest) lvl prev base σ).successful_exports = 0 ∧
    (lod_loop ops name (ratio :: rest) lvl prev base σ).built_levels = [lvl] := by
  by_cases h0 : lvl = 0
  · subst h0
    by_cases h1 : (ops 0).create_ok = true
    · by_cases h2 : (ops 0).setup_ok = true
      · by_cases h3 : (ops 0).process_ok = true
        · have h4 : (ops 0).export_ok = false := by
            simp [level_ok, h1, h2, h3] at hok
            exact hok
          simp [lod_loop, h1, h2, h3, h4]
        · have h3' : (ops 0).process_ok = false := by simpa using h3
          simp [lod_loop, h1, h2, h3']
      · have h2' : (ops 0).setup_ok = false := by simpa using h2
        simp [lod_loop, h1, h2']
    · have h1' : (ops 0).create_ok = false := by simpa using h1
      simp [lod_loop, h1']
  · cases base with
    | none => simp [lod_loop, h0]
    | some b =>
      by_cases h2 : (ops lvl).setup_ok = true
      · by_cases h3 : (ops lvl).process_ok = true
        · have h4 : (ops lvl).export_ok = false := by
            simp [level_ok, h0, h2, h3] at hok
            exact hok
          simp [lod_loop, h0, h2, h3, h4]
        · have h3' : (ops lvl).process_ok = false := by simpa using h3
          simp [lod_loop, h0, h2, h3']
      · have h2' : (ops lvl).setup_ok = false := by simpa using h2
        simp [lod_loop, h0, h2']

/-- Characterization of the level loop: when every level in range
succeeds, all levels are built and exported with no failure entry; when a
first failure occurs at level `j`, exactly the levels before `j` are
exported, exactly the levels up to `j` are built, and the single failure
entry names level `j`. -/
theorem lod_loop_spec (ops : ℕ → LevelOps) (name : String) (rest : List ℚ) :
    ∀ (lvl : ℕ) (prev : ℚ) (base : Option ℕ) (σ : BData),
      (lvl = 0 ∨ base ≠ none) →
      ((∀ k, lvl ≤ k → k < lvl + rest.length → level_ok ops k = true) →
        (lod_loop ops name rest lvl prev base σ).failed_exports = [] ∧
        (lod_loop ops name rest lvl prev base σ).successful_exports = rest.length ∧
        (lod_loop ops name rest lvl prev base σ).built_levels
          = List.range' lvl rest.length) ∧
      (∀ j, lvl ≤ j → j < lvl + rest.length → level_ok ops j = false →
        (∀ k, lvl ≤ k → k < j → level_ok ops k = true) →
        (lod_loop ops name rest lvl prev base σ).failed_exports
          = [failed_entry name j] ∧
        (lod_loop ops name rest lvl prev base σ).successful_exports = j - lvl ∧
        (lod_loop ops name rest lvl prev base σ).built_levels
          = List.range' lvl (j - lvl + 1)) := by
  induction rest with
  | nil =>
    intro lvl prev base σ hbase
    constructor
    · intro _
      exact ⟨rfl, rfl, rfl⟩
    · intro j hj1 hj2 _ _
      simp only [List.length_nil, Nat.add_zero] at hj2
      omega
  | cons ratio rest ih =>
    intro lvl prev base σ hbase
    by_cases hok : level_ok ops lvl = true
    · obtain ⟨b, σ1, heq⟩ :=
        lod_loop_cons_ok ops name ratio rest lvl prev base σ hbase hok
      have ihs := ih (lvl + 1) ratio (some b) σ1 (Or.inr (by simp))
      constructor
      · intro hall
        obtain ⟨hf, hs, hb2⟩ := ihs.1 (by
          intro k hk1 hk2
          exact hall k (by omega) (by simp only [List.length_cons]; omega))
        rw [heq]
        refine ⟨hf, ?_, ?_⟩
        · simp only [List.length_cons, hs]
        · show lvl :: (lod_loop ops name rest (lvl + 1) ratio (some b) σ1).built_levels
            = List.range' lvl (rest.length + 1)
          rw [hb2]
          rfl
      · intro j hj1 hj2 hfail hprev
        have hjl : lvl < j := by
          rcases Nat.lt_or_ge lvl j with h | h
          · exact h
          · have : j = lvl := by omega
            rw [this] at hfail
            rw [hfail] at hok
            exact absurd hok (by simp)
        obtain ⟨hf, hs, hb2⟩ := ihs.2 j (by omega)
          (by simp only [List.length_cons] at hj2; omega) hfail
          (fun k hk1 hk2 => hprev k (by omega) hk2)
        rw [heq]
        refine ⟨hf, ?_, ?_⟩
        · show (lod_loop ops name rest (lvl + 1) ratio (some b) σ1).successful_exports + 1
            = j - lvl
          rw [hs]
          omega
        · show lvl :: (lod_loop ops name rest (lvl + 1) ratio (some b) σ1).built_levels
            = List.range' lvl (j - lvl + 1)
          rw [hb2]
          have harith : j - lvl + 1 = (j - (lvl + 1) + 1) + 1 := by omega
          rw [harith]
          rfl
    · have hfl : level_ok ops lvl = false := by
        cases h : level_ok ops lvl
        · rfl
        · exact absurd h hok
      obtain ⟨hf, hs, hb⟩ :=
        lod_loop_cons_fail ops name ratio rest lvl prev base σ hfl
      constructor
      · intro hall
        have := hall lvl (le_refl _) (by simp only [List.length_cons]; omega)
        rw [hfl] at this
        exact absurd this (by simp)
      · intro j hj1 hj2 hfail hprev
        have hjeq : j = lvl := by
          by_contra hne
          have hlt : lvl < j := by omega
          have := hprev lvl (le_refl _) hlt
          rw [hfl] at this
          exact absurd this (by simp)
        subst hjeq
        refine ⟨hf, by rw [hs]; omega, ?_⟩
        rw [hb]
        have : j - j + 1 = 1 := by omega
        rw [this]
        rfl

/-- Folding the batch step from an arbitrary accumulator just shifts the
results of the batch started from the empty accumulator. -/
theorem execute_batch_shift (ops : String → ℕ → LevelOps) (names : List String)
    (lod_ratios : List ℚ) :
    ∀ (c : ℕ) (f : List String) (σ : BData),
      names.foldl
        (fun acc nm =>
          let res := process_lod_export (ops nm) nm lod_ratios acc.2.2
          (acc.1 + res.successful_exports, acc.2.1 ++ res.failed_exports, res.bdata))
        (c, f, σ)
      = (c + (execute_batch ops names lod_ratios σ).1,
         f ++ (execute_batch ops names lod_ratios σ).2.1,
         (execute_batch ops names lod_ratios σ).2.2) := by
  induction names with
  | nil =>
    intro c f σ
    simp [execute_batch]
  | cons nm rest ih =>
    intro c f σ
    rw [List.foldl_cons]
    have hbatch : execute_batch ops (nm :: rest) lod_ratios σ
        = rest.foldl
            (fun acc nm' =>
              let res := process_lod_export (ops nm') nm' lod_ratios acc.2.2
              (acc.1 + res.successful_exports, acc.2.1 ++ res.failed_exports,
                res.bdata))
            (0 + (process_lod_export (ops nm) nm lod_ratios σ).successful_exports,
             [] ++ (process_lod_export (ops nm) nm lod_ratios σ).failed_exports,
             (process_lod_export (ops nm) nm lod_ratios σ).bdata) := by
      rfl
    rw [ih, hbatch, ih]
    simp [List.append_assoc]
    omega

/-- The batch over a concatenation processes the second part exactly as a
batch of its own, starting from the state the first part left behind: a
failure inside the first part never stops the rest. -/
theorem execute_batch_append (ops : String → ℕ → LevelOps)
    (names1 names2 : List String) (lod_ratios : List ℚ) (σ : BData) :
    execute_batch ops (names1 ++ names2) lod_ratios σ
      = ((execute_batch ops names1 lod_ratios σ).1
           + (execute_batch ops names2 lod_ratios
               (execute_batch ops names1 lod_ratios σ).2.2).1,
         (execute_batch ops names1 lod_ratios σ).2.1
           ++ (execute_batch ops names2 lod_ratios
               (execute_batch ops names1 lod_ratios σ).2.2).2.1,
         (execute_batch ops names2 lod_ratios
             (execute_batch ops names1 lod_ratios σ).2.2).2.2) := by
  show (names1 ++ names2).foldl _ (0, [], σ) = _
  rw [List.foldl_append]
  exact execute_batch_shift ops names2 lod_ratios _ _ _

/-- C3: when an object's LOD chain first fails at level `j`, exactly the
levels before `j` are exported, no level beyond `j` is built or exported,
the single failure entry in the report names that object and level, and
the batch driver — a total function for every oracle of outcomes, so no
per-level or per-object failure propagates as an exception — continues
with the remaining objects exactly as if they were their own batch. -/
theorem c3_chain_stops_batch_continues
    (ops : String → ℕ → LevelOps) (nm : String) (lod_ratios : List ℚ)
    (σ : BData) (j : ℕ)
    (hj : j < 1 + lod_ratios.length)
    (hfail : level_ok (ops nm) j = false)
    (hprev : ∀ k, k < j → level_ok (ops nm) k = true) :
    (process_lod_export (ops nm) nm lod_ratios σ).failed_exports
        = [failed_entry nm j] ∧
    (process_lod_export (ops nm) nm lod_ratios σ).successful_exports = j ∧
    (process_lod_export (ops nm) nm lod_ratios σ).built_levels
        = List.range' 0 (j + 1) ∧
    (∀ i ∈ (process_lod_export (ops nm) nm lod_ratios σ).built_levels, i ≤ j) ∧
    (∀ (names1 names2 : List String) (σ0 : BData),
      execute_batch ops (names1 ++ names2) lod_ratios σ0
        = ((execute_batch ops names1 lod_ratios σ0).1
             + (execute_batch ops names2 lod_ratios
                 (execute_batch ops names1 lod_ratios σ0).2.2).1,
           (execute_batch ops names1 lod_ratios σ0).2.1
             ++ (execute_batch ops names2 lod_ratios
                 (execute_batch ops names1 lod_ratios σ0).2.2).2.1,
           (execute_batch ops names2 lod_ratios
               (execute_batch ops names1 lod_ratios σ0).2.2).2.2)) := by
  have hspec := (lod_loop_spec (ops nm) nm ([(1 : ℚ)] ++ lod_ratios) 0 1 none σ
    (Or.inl rfl)).2 j (Nat.zero_le _)
    (by simp only [List.length_append, List.length_cons, List.length_nil]; omega)
    hfail (fun k _ hk => hprev k hk)
  obtain ⟨hf, hs, hb⟩ := hspec
  have hsub : j - 0 = j := Nat.sub_zero j
  rw [hsub] at hs hb
  refine ⟨hf, hs, hb, ?_, ?_⟩
  · intro i hi
    rw [show (process_lod_export (ops nm) nm lod_ratios σ).built_levels
        = (lod_loop (ops nm) nm ([(1 : ℚ)] ++ lod_ratios) 0 1 none σ).built_levels
      from rfl, hb] at hi
    have := List.mem_range'_1.mp hi
    omega
  · intro names1 names2 σ0
    exact execute_batch_append ops names1 names2 lod_ratios σ0

/-- Witness for C3: three-level chain (`LOD00`-`LOD02`) whose decimation
fails at level 2, inside a two-object batch. -/
theorem c3_chain_stops_batch_continues_witness :
    (process_lod_export
        (fun l => if l = 2 then ⟨true, true, false, true⟩
          else ⟨true, true, true, true⟩) "A" [1/2, 1/4]
        ⟨[], [], 0⟩).failed_exports = [failed_entry "A" 2] ∧
    (process_lod_export
        (fun l => if l = 2 then ⟨true, true, false, true⟩
          else ⟨true, true, true, true⟩) "A" [1/2, 1/4]
        ⟨[], [], 0⟩).successful_exports = 2 ∧
    (process_lod_export
        (fun l => if l = 2 then ⟨true, true, false, true⟩
          else ⟨true, true, true, true⟩) "A" [1/2, 1/4]
        ⟨[], [], 0⟩).built_levels = List.range' 0 3 := by
  have h := c3_chain_stops_batch_continues
    (fun _ l => if l = 2 then ⟨true, true, false, true⟩
      else ⟨true, true, true, true⟩) "A" [1/2, 1/4] ⟨[], [], 0⟩ 2
    (by norm_num) (by decide)
    (by
      intro k hk
      interval_cases k <;> decide)
  exact ⟨h.1, h.2.1, h.2.2.1⟩

/-! ## C8: decimation symmetry-axis validation (`apply_decimate_modifier`,
operators.py 1360-1418) -/

/-- Python `str.upper()` for the ASCII names used here. -/
def strUpper (s : String) : String :=
  ⟨s.data.map Char.toUpper⟩

/-- Embedding of `apply_decimate_modifier` (operators.py 1360-1418) on the
object's modifier stack: a temporary `TempDecimate` modifier is added; for
the COLLAPSE type with symmetry enabled, an upper-cased axis outside
`{'X','Y','Z'}` makes the code remove the modifier and raise the *builtin*
`ValueError` (operators.py 1374-1378); otherwise the apply step either
consumes the modifier (success) or fails, in which case the modifier is
removed and the failure is re-raised as `RuntimeError`
(operators.py 1408-1415).  Either way the stack is left without the
temporary modifier. -/
def apply_decimate_modifier (modifiers : List String)
    (decimate_type sym_axis : String) (sym : Bool) (apply_ok : Bool) :
    Except ErrKind Unit × List String :=
  let _mods1 := modifiers ++ ["TempDecimate"]
  if strUpper decimate_type = "COLLAPSE" && sym
      && ! (["X", "Y", "Z"].contains (strUpper sym_axis)) then
    (.error ErrKind.valueError, modifiers)
  else if apply_ok then
    (.ok (), modifiers)
  else
    (.error ErrKind.runtimeError, modifiers)

/-- Counterexample to C8: an invalid symmetry axis raises the Python
builtin `ValueError`, not the add-on's `ValidationError` class
(operators.py 44-47), so the failure is not `ValidationError`-tagged. -/
theorem c8_counterexample :
    (apply_decimate_modifier ["Mirror"] "COLLAPSE" "W" true true).1
      = Except.error ErrKind.valueError ∧
    ErrKind.valueError ≠ ErrKind.validationError := by
  exact ⟨rfl, by decide⟩

/-- C8 (amended): with symmetry enabled and an upper-cased axis outside
the fixed set `{X, Y, Z}`, the decimation step raises the builtin
`ValueError` after removing the temporarily added modifier, so only this
decimation operation is aborted and the modifier stack is unchanged; the
resulting per-level failure is recorded in the batch report as
`"<name> (LOD<NN>)"` (see the chain theorems), without an error-kind tag. -/
theorem c8_invalid_axis_value_error (modifiers : List String)
    (decimate_type sym_axis : String) (apply_ok : Bool)
    (htype : strUpper decimate_type = "COLLAPSE")
    (haxis : (["X", "Y", "Z"].contains (strUpper sym_axis)) = false) :
    apply_decimate_modifier modifiers decimate_type sym_axis true apply_ok
      = (Except.error ErrKind.valueError, modifiers) := by
  unfold apply_decimate_modifier
  rw [if_pos]
  rw [htype, haxis]
  rfl

/-- Witness for C8 at the lower-cased inputs `("collapse", "w")`. -/
theorem c8_invalid_axis_value_error_witness :
    apply_decimate_modifier ["Subsurf"] "collapse" "w" true false
      = (Except.error ErrKind.valueError, ["Subsurf"]) :=
  c8_invalid_axis_value_error ["Subsurf"] "collapse" "w" false rfl rfl

end EasyMesh
